import Mathlib

/-!
Shallow embedding of the rsse SSE client (src/) in Lean 4, together with
theorems settling the frozen claims about its specification.

Strings are modelled as `List Char`; the Rust string operations used by the
code (`starts_with`, `replace`, `trim`, `splitn`, `split`, `parse::<u32>`)
are reproduced over `List Char` below, faithful to their Rust semantics on
the character sets that occur in the program.
-/

namespace Rsse

/-- Whitespace predicate used by Rust's `str::trim` (restricted to the ASCII
whitespace characters; the program only ever deals with ASCII framing). -/
def isWs (c : Char) : Bool :=
  c = ' ' || c = '\t' || c = '\n' || c = '\r' || c = '\x0b' || c = '\x0c'

/-- `str::trim_start`: drop leading whitespace. -/
def trimL (s : List Char) : List Char := s.dropWhile isWs

/-- `str::trim_end`: drop trailing whitespace. -/
def trimR (s : List Char) : List Char := (trimL s.reverse).reverse

/-- Rust `str::trim`: drop leading and trailing whitespace. -/
def trim (s : List Char) : List Char := trimL (trimR s)

/-- Worker for `replaceDel`: when the skip counter is positive, the current
character belongs to an already-matched occurrence of the pattern and is
dropped; at counter zero the scan tests for a fresh occurrence of
`p0 :: ps`. -/
def replaceDelAux (p0 : Char) (ps : List Char) : Nat → List Char → List Char
  | _, [] => []
  | Nat.succ k, _ :: rest => replaceDelAux p0 ps k rest
  | 0, c :: rest =>
    if (p0 :: ps).isPrefixOf (c :: rest) then replaceDelAux p0 ps ps.length rest
    else c :: replaceDelAux p0 ps 0 rest

/-- Rust `str::replace(pat, "")` for a non-empty pattern `p0 :: ps`:
scan left to right, delete each non-overlapping occurrence of the pattern. -/
def replaceDel (p0 : Char) (ps : List Char) (s : List Char) : List Char :=
  replaceDelAux p0 ps 0 s

/-- Whether the pattern `p0 :: ps` occurs as a contiguous subsequence. -/
def containsSeq (p0 : Char) (ps : List Char) : List Char → Bool
  | [] => false
  | c :: rest => (p0 :: ps).isPrefixOf (c :: rest) || containsSeq p0 ps rest

/-- Accumulator for decimal digit parsing. -/
def digitsValGo (acc : Nat) : List Char → Option Nat
  | [] => some acc
  | c :: r => if c.isDigit then digitsValGo (acc * 10 + (c.toNat - 48)) r else none

/-- Value of a non-empty all-digit string, `none` otherwise. -/
def digitsVal : List Char → Option Nat
  | [] => none
  | l => digitsValGo 0 l

/-- Rust `str::parse::<u32>()`: optional leading `+`, one or more ASCII
digits, value below `2^32`; anything else is a parse error (`none`). -/
def parseU32 (s : List Char) : Option Nat :=
  let t := match s with
    | '+' :: rest => rest
    | _ => s
  match digitsVal t with
  | none => none
  | some v => if v < 4294967296 then some v else none

/-- Rust `str::split(sep)` for a one-character separator: splits on every
occurrence, keeping empty pieces (`"".split` is `[""]`). -/
def splitOnChar (sep : Char) : List Char → List (List Char)
  | [] => [[]]
  | c :: rest =>
    if c = sep then [] :: splitOnChar sep rest
    else
      match splitOnChar sep rest with
      | [] => [[c]]
      | g :: gs => (c :: g) :: gs

/-- Decidable equality for `Except`, so that closed claims can be settled by
`decide`. -/
instance {ε α : Type} [DecidableEq ε] [DecidableEq α] : DecidableEq (Except ε α) := by
  intro a b
  cases a with
  | ok x =>
    cases b with
    | ok y =>
      cases decEq x y with
      | isTrue h => exact isTrue (h ▸ rfl)
      | isFalse h => exact isFalse (fun he => h (Except.ok.inj he))
    | error f => exact isFalse (fun he => Except.noConfusion he)
  | error e =>
    cases b with
    | ok y => exact isFalse (fun he => Except.noConfusion he)
    | error f =>
      cases decEq e f with
      | isTrue h => exact isTrue (h ▸ rfl)
      | isFalse h => exact isFalse (fun he => h (Except.error.inj he))

/-- Rust `str::splitn(2, ":")`: split at the first colon, `none` if there is
no colon in the string. -/
def splitFirstColon : List Char → Option (List Char × List Char)
  | [] => none
  | c :: rest =>
    if c = ':' then some ([], rest)
    else (splitFirstColon rest).map (fun p => (c :: p.1, p.2))

/-! ## src/sse/response.rs: the SSE field-line parser -/

/-- `SseResponse` (src/sse/response.rs): one SSE event per parsed field line. -/
inductive SseResponse where
  | Event (s : List Char)
  | Data (s : List Char)
  | Id (s : List Char)
  | Retry (r : Nat)
deriving DecidableEq, Repr

/-- `SseResponseError` (src/sse/response.rs); the formatted message payloads
carry no behaviour and are omitted. -/
inductive SseResponseError where
  | InvalidFormat
  | InvalidRetry
deriving DecidableEq, Repr

/-- `SseResponse::trim` (src/sse/response.rs): `line.replace(res_type, "").trim()`;
note this deletes every occurrence of the field name, not just the prefix. -/
def sseFieldTrim (p0 : Char) (ps : List Char) (line : List Char) : List Char :=
  trim (replaceDel p0 ps line)

/-- `SseResponse::from_line` (src/sse/response.rs). -/
def SseResponse.from_line (line : List Char) : Except SseResponseError SseResponse :=
  if ("data:").toList.isPrefixOf line then
    .ok (.Data (sseFieldTrim 'd' ("ata:").toList line))
  else if ("event:").toList.isPrefixOf line then
    .ok (.Event (sseFieldTrim 'e' ("vent:").toList line))
  else if ("id:").toList.isPrefixOf line then
    .ok (.Id (sseFieldTrim 'i' ("d:").toList line))
  else if ("retry:").toList.isPrefixOf line then
    match parseU32 (sseFieldTrim 'r' ("etry:").toList line) with
    | some r => .ok (.Retry r)
    | none => .error .InvalidRetry
  else
    .error .InvalidFormat

/-! ## src/http.rs: status line, status code, version
(`connector.rs` imports these via the `http::status_line` module path; the
claims cite the identical definitions in src/http.rs.) -/

/-- `HttpVersion` (src/http.rs): only HTTP/1.1 is recognized. -/
inductive HttpVersion where
  | V1_1
deriving DecidableEq, Repr

/-- `HttpVersion::from_str` (src/http.rs). -/
def HttpVersion.from_str (version : List Char) : Option HttpVersion :=
  if version = ("HTTP/1.1").toList then some .V1_1 else none

/-- `HttpStatusCode` (src/http.rs). -/
inductive HttpStatusCode where
  | Unknown
  | Continue
  | SwitchingProtocols
  | Processing
  | EarlyHints
  | OK
  | Created
  | Accepted
  | NonAuthoritativeInformation
  | NoContent
  | ResetContent
  | PartialContent
  | MultiStatus
  | AlreadyReported
  | IMUsed
  | MultipleChoices
  | MovedPermanently
  | Found
  | SeeOther
  | NotModified
  | UseProxy
  | SwitchProxy
  | TemporaryRedirect
  | PermanentRedirect
  | BadRequest
  | Unauthorized
  | PaymentRequired
  | Forbidden
  | NotFound
  | MethodNotAllowed
  | NotAcceptable
  | ProxyAuthenticationRequired
  | RequestTimeout
  | Conflict
  | Gone
  | LengthRequired
  | PreconditionFailed
  | PayloadTooLarge
  | URITooLong
  | UnsupportedMediaType
  | RangeNotSatisfiable
  | ExpectationFailed
  | ImAteapot
  | MisdirectedRequest
  | UnprocessableEntity
  | Locked
  | FailedDependency
  | TooEarly
  | UpgradeRequired
  | PreconditionRequired
  | TooManyRequests
  | RequestHeaderFieldsTooLarge
  | UnavailableForLegalReasons
  | InternalServerError
  | NotImplemented
  | BadGateway
  | ServiceUnavailable
  | GatewayTimeout
  | HTTPVersionNotSupported
  | VariantAlsoNegotiates
  | InsufficientStorage
  | LoopDetected
  | NotExtended
  | NetworkAuthenticationRequired
deriving DecidableEq, Repr

/-- `impl Into<u32> for HttpStatusCode` / `HttpStatusCode::num` (src/http.rs).
`Unknown` maps to 0. -/
def HttpStatusCode.num : HttpStatusCode → Nat
  | .Continue => 100
  | .SwitchingProtocols => 101
  | .Processing => 102
  | .EarlyHints => 103
  | .OK => 200
  | .Created => 201
  | .Accepted => 202
  | .NonAuthoritativeInformation => 203
  | .NoContent => 204
  | .ResetContent => 205
  | .PartialContent => 206
  | .MultiStatus => 207
  | .AlreadyReported => 208
  | .IMUsed => 226
  | .MultipleChoices => 300
  | .MovedPermanently => 301
  | .Found => 302
  | .SeeOther => 303
  | .NotModified => 304
  | .UseProxy => 305
  | .SwitchProxy => 306
  | .TemporaryRedirect => 307
  | .PermanentRedirect => 308
  | .BadRequest => 400
  | .Unauthorized => 401
  | .PaymentRequired => 402
  | .Forbidden => 403
  | .NotFound => 404
  | .MethodNotAllowed => 405
  | .NotAcceptable => 406
  | .ProxyAuthenticationRequired => 407
  | .RequestTimeout => 408
  | .Conflict => 409
  | .Gone => 410
  | .LengthRequired => 411
  | .PreconditionFailed => 412
  | .PayloadTooLarge => 413
  | .URITooLong => 414
  | .UnsupportedMediaType => 415
  | .RangeNotSatisfiable => 416
  | .ExpectationFailed => 417
  | .ImAteapot => 418
  | .MisdirectedRequest => 421
  | .UnprocessableEntity => 422
  | .Locked => 423
  | .FailedDependency => 424
  | .TooEarly => 425
  | .UpgradeRequired => 426
  | .PreconditionRequired => 428
  | .TooManyRequests => 429
  | .RequestHeaderFieldsTooLarge => 431
  | .UnavailableForLegalReasons => 451
  | .InternalServerError => 500
  | .NotImplemented => 501
  | .BadGateway => 502
  | .ServiceUnavailable => 503
  | .GatewayTimeout => 504
  | .HTTPVersionNotSupported => 505
  | .VariantAlsoNegotiates => 506
  | .InsufficientStorage => 507
  | .LoopDetected => 508
  | .NotExtended => 510
  | .NetworkAuthenticationRequired => 511
  | .Unknown => 0

/-- `HttpStatusCode::from_num` (src/http.rs): any number outside the explicit
list maps to `Unknown`. -/
def HttpStatusCode.from_num : Nat → HttpStatusCode
  | 100 => .Continue
  | 101 => .SwitchingProtocols
  | 102 => .Processing
  | 103 => .EarlyHints
  | 200 => .OK
  | 201 => .Created
  | 202 => .Accepted
  | 203 => .NonAuthoritativeInformation
  | 204 => .NoContent
  | 205 => .ResetContent
  | 206 => .PartialContent
  | 207 => .MultiStatus
  | 208 => .AlreadyReported
  | 226 => .IMUsed
  | 300 => .MultipleChoices
  | 301 => .MovedPermanently
  | 302 => .Found
  | 303 => .SeeOther
  | 304 => .NotModified
  | 305 => .UseProxy
  | 306 => .SwitchProxy
  | 307 => .TemporaryRedirect
  | 308 => .PermanentRedirect
  | 400 => .BadRequest
  | 401 => .Unauthorized
  | 402 => .PaymentRequired
  | 403 => .Forbidden
  | 404 => .NotFound
  | 405 => .MethodNotAllowed
  | 406 => .NotAcceptable
  | 407 => .ProxyAuthenticationRequired
  | 408 => .RequestTimeout
  | 409 => .Conflict
  | 410 => .Gone
  | 411 => .LengthRequired
  | 412 => .PreconditionFailed
  | 413 => .PayloadTooLarge
  | 414 => .URITooLong
  | 415 => .UnsupportedMediaType
  | 416 => .RangeNotSatisfiable
  | 417 => .ExpectationFailed
  | 418 => .ImAteapot
  | 421 => .MisdirectedRequest
  | 422 => .UnprocessableEntity
  | 423 => .Locked
  | 424 => .FailedDependency
  | 425 => .TooEarly
  | 426 => .UpgradeRequired
  | 428 => .PreconditionRequired
  | 429 => .TooManyRequests
  | 431 => .RequestHeaderFieldsTooLarge
  | 451 => .UnavailableForLegalReasons
  | 500 => .InternalServerError
  | 501 => .NotImplemented
  | 502 => .BadGateway
  | 503 => .ServiceUnavailable
  | 504 => .GatewayTimeout
  | 505 => .HTTPVersionNotSupported
  | 506 => .VariantAlsoNegotiates
  | 507 => .InsufficientStorage
  | 508 => .LoopDetected
  | 510 => .NotExtended
  | 511 => .NetworkAuthenticationRequired
  | _ => .Unknown

/-- `HttpStatusCode::from_num_str` (src/http.rs): parse as u32 then map. -/
def HttpStatusCode.from_num_str (s : List Char) : Option HttpStatusCode :=
  (parseU32 s).map HttpStatusCode.from_num

/-- `HttpStatusCode::is_ok` (src/http.rs): `num() < 400`. -/
def HttpStatusCode.is_ok (c : HttpStatusCode) : Bool := decide (c.num < 400)

/-- `HttpStatusCode::is_error` (src/http.rs): `num() >= 400`. -/
def HttpStatusCode.is_error (c : HttpStatusCode) : Bool := decide (400 ≤ c.num)

/-- `HttpStatusLineError` (src/http.rs), message payload omitted. -/
inductive HttpStatusLineError where
  | InvalidFormat
deriving DecidableEq, Repr

/-- `HttpStatusLine` (src/http.rs). -/
structure HttpStatusLine where
  version : HttpVersion
  status_code : HttpStatusCode
deriving DecidableEq, Repr

/-- `HttpStatusLine::from_str` (src/http.rs): `line.split(" ")` must yield a
version, a status number, and at least one further token (the reason phrase);
the version and number must parse. -/
def HttpStatusLine.from_str (line : List Char) :
    Except HttpStatusLineError HttpStatusLine :=
  match splitOnChar ' ' line with
  | version :: status_num :: _status_message :: _ =>
    match HttpVersion.from_str version with
    | none => .error .InvalidFormat
    | some v =>
      match HttpStatusCode.from_num_str status_num with
      | none => .error .InvalidFormat
      | some sc => .ok ⟨v, sc⟩
  | _ => .error .InvalidFormat

/-- Status-line error test used by `SseConnection::read`
(`http_status.is_error()`). The `http::status_line` module file itself is not
under src; per its use in connector.rs and `HttpStatusCode::is_error` in
src/http.rs it holds exactly when the numeric code is ≥ 400. -/
def HttpStatusLine.is_error (st : HttpStatusLine) : Bool := st.status_code.is_error

/-! ## src/http/header.rs and src/http/body.rs -/

/-- `HttpHeaderError` (src/http/header.rs), message payload omitted. -/
inductive HttpHeaderError where
  | InvalidFormat
deriving DecidableEq, Repr

/-- `HashMap::insert` semantics on an association list: replace the value of
an existing key, otherwise add a new entry. Only `get` is observable on the
Rust `HashMap`, and this representation agrees with it. -/
def hmInsert : List (List Char × List Char) → List Char → List Char →
    List (List Char × List Char)
  | [], k, v => [(k, v)]
  | (k0, v0) :: rest, k, v =>
    if k0 = k then (k0, v) :: rest else (k0, v0) :: hmInsert rest k v

/-- `HashMap::get` on the association-list representation. -/
def hmGet : List (List Char × List Char) → List Char → Option (List Char)
  | [], _ => none
  | (k0, v0) :: rest, k => if k0 = k then some v0 else hmGet rest k

/-- `HttpHeader` (src/http/header.rs): a map from header names to values. -/
structure HttpHeader where
  headers : List (List Char × List Char)
deriving DecidableEq, Repr

/-- `HttpHeader::new` (src/http/header.rs). -/
def HttpHeader.new : HttpHeader := ⟨[]⟩

/-- `HttpHeader::get` (src/http/header.rs). -/
def HttpHeader.get (h : HttpHeader) (k : List Char) : Option (List Char) :=
  hmGet h.headers k

/-- `HttpHeader::concat` (src/http/header.rs): `self.headers.extend(other)`. -/
def HttpHeader.concat (h other : HttpHeader) : HttpHeader :=
  ⟨other.headers.foldl (fun m kv => hmInsert m kv.1 kv.2) h.headers⟩

/-- `HttpHeader::from_line` (src/http/header.rs): `splitn(2, ":")` must yield
a key and a value; both are trimmed. A line without a colon is an error. -/
def HttpHeader.from_line (line : List Char) : Except HttpHeaderError HttpHeader :=
  match splitFirstColon line with
  | none => .error .InvalidFormat
  | some (k, v) => .ok ⟨[(trim k, trim v)]⟩

/-- `HttpBody` (src/http/body.rs). -/
structure HttpBody where
  body : List Char
deriving DecidableEq, Repr

/-- `HttpBody::new` (src/http/body.rs). -/
def HttpBody.new : HttpBody := ⟨[]⟩

/-- `HttpBody::from_line` (src/http/body.rs): keeps the line verbatim. -/
def HttpBody.from_line (line : List Char) : HttpBody := ⟨line⟩

/-- `HttpBody::concat` (src/http/body.rs): string append. -/
def HttpBody.concat (b other : HttpBody) : HttpBody := ⟨b.body ++ other.body⟩

/-- `HttpBody::to_str` (src/http/body.rs). -/
def HttpBody.to_str (b : HttpBody) : List Char := b.body

/-! ## src/http/response.rs -/

/-- `HttpResponse` (src/http/response.rs). -/
structure HttpResponse where
  status_line : HttpStatusLine
  header : HttpHeader
  body : HttpBody
deriving DecidableEq, Repr

/-- `HttpResponse::new` (src/http/response.rs). -/
def HttpResponse.new (s : HttpStatusLine) (h : HttpHeader) (b : HttpBody) :
    HttpResponse := ⟨s, h, b⟩

/-- `HttpResponse::status_code` (src/http/response.rs). -/
def HttpResponse.status_code (r : HttpResponse) : Nat := r.status_line.status_code.num

/-- `HttpResponse::get_header` (src/http/response.rs). -/
def HttpResponse.get_header (r : HttpResponse) (k : List Char) : Option (List Char) :=
  r.header.get k

/-- `HttpResponse::body_str` (src/http/response.rs). -/
def HttpResponse.body_str (r : HttpResponse) : List Char := r.body.to_str

/-! ## src/sse/connector.rs: the connection read loop -/

/-- `SseConnectionError` (src/sse/connector.rs). io::Error payloads are
modelled by a numeric tag so that error identity is observable; variants the
claims never exercise carry no payload. -/
inductive SseConnectionError where
  | InvalidUrl (s : List Char)
  | ProxyConnectionError
  | CAFileIOError
  | HttpError (r : HttpResponse)
  | ConnectError
  | ConnectionError (e : Nat)
  | DnsError
deriving DecidableEq, Repr

/-- `ConnectedSseResponse` (src/sse/connector.rs). -/
inductive ConnectedSseResponse where
  | Progress (r : SseResponse)
  | Done
deriving DecidableEq, Repr

/-- One outcome of `Socket::read_line`: a line (with trailing newline), or an
io::Error (tagged). End of stream is the end of the list. -/
inductive SockItem where
  | line (l : List Char)
  | ioerr (e : Nat)
deriving DecidableEq, Repr

/-- The accumulation loop of `SseConnection::http_error`
(src/sse/connector.rs lines 303-315): read lines until `read_line` yields
`None`; an `Err` from `read_line` is collapsed to `None` by
`map_or(None, |r| r)` and therefore also ends the loop. Header-shaped lines
are folded into the header map, all other lines are appended verbatim to the
body. Returns the header, the body, and the unconsumed socket items. -/
def httpErrorAcc (h : HttpHeader) (b : HttpBody) :
    List SockItem → HttpHeader × HttpBody × List SockItem
  | [] => (h, b, [])
  | .ioerr _ :: rest => (h, b, rest)
  | .line l :: rest =>
    match HttpHeader.from_line l with
    | .ok add_header => httpErrorAcc (h.concat add_header) b rest
    | .error _ => httpErrorAcc h (b.concat (HttpBody.from_line l)) rest

/-- `SseConnection::http_error` (src/sse/connector.rs): run the accumulation
from empty header/body and wrap the result in `HttpError`. -/
def http_error (st : HttpStatusLine) (sock : List SockItem) :
    SseConnectionError × List SockItem :=
  let acc := httpErrorAcc HttpHeader.new HttpBody.new sock
  (.HttpError (HttpResponse.new st acc.1 acc.2.1), acc.2.2)

/-- `SseConnection::read` (src/sse/connector.rs lines 281-302). The
connection owns only the socket; the parse state is the line itself:
- a parsable non-error status line is skipped (`continue`);
- a parsable error status line hands off to `http_error`;
- otherwise a parsable SSE field line is returned as `Progress`;
- every other line (header-shaped or not) is skipped;
- end of stream returns `Done`; an `Err` from `read_line` maps to
  `ConnectionError`.
Returns the outcome and the unconsumed socket items. -/
def read : List SockItem →
    Except SseConnectionError ConnectedSseResponse × List SockItem
  | [] => (.ok .Done, [])
  | .ioerr e :: rest => (.error (.ConnectionError e), rest)
  | .line l :: rest =>
    match HttpStatusLine.from_str l with
    | .ok http_status =>
      if http_status.is_error then
        let r := http_error http_status rest
        (.error r.1, r.2)
      else read rest
    | .error _ =>
      match SseResponse.from_line l with
      | .ok sse_response => (.ok (.Progress sse_response), rest)
      | .error _ =>
        match HttpHeader.from_line l with
        | .ok _ => read rest
        | .error _ => read rest

/-! ## src/sse/subscriber.rs -/

/-- `HandleProgress` (src/sse/subscriber.rs). -/
inductive HandleProgress (E : Type) where
  | Done
  | Progress
  | Err (e : E)

/-- A handler (`SseHandler` / `SseMutHandler`, src/sse/subscriber.rs),
modelled as an explicit state machine: `handle` consumes an event and yields
the next handler state plus a `HandleProgress`; `result` reads the final
value off the state. The immutable shape also carries a state because Rust's
`&self` handlers may mutate through interior mutability (the repository's
`MockHandler` does exactly that with `RefCell`). -/
structure Handler (σ T E : Type) where
  handle : σ → SseResponse → σ × HandleProgress E
  result : σ → Except E T

/-- `SseSubscribeError` (src/sse/subscriber.rs). -/
inductive SseSubscribeError (E : Type) where
  | InvalidUrl (s : List Char)
  | ConnectionError (e : SseConnectionError)
  | HttpError (r : HttpResponse)
  | HandlerError (e : E)

/-- `impl From<SseConnectionError> for SseSubscribeError`
(src/sse/subscriber.rs): `HttpError` is unwrapped, everything else becomes
`ConnectionError`. -/
def SseSubscribeError.fromConn {E : Type} :
    SseConnectionError → SseSubscribeError E
  | .HttpError r => .HttpError r
  | e => .ConnectionError e

/-- Outcome of a subscribe call. `aborted` models the `todo!()` panic that
`subscribe_mut` executes on `HandleProgress::Err` — it is not a return value
of the function but the divergence of the process. -/
inductive SubscribeOutcome (T E : Type) where
  | ok (t : T)
  | err (e : SseSubscribeError E)
  | aborted

/-- `handler.result().map_err(SseSubscribeError::HandlerError)`, the shared
return path of both subscribe loops. -/
def finishWith {σ T E : Type} (H : Handler σ T E) (st : σ) : SubscribeOutcome T E :=
  match H.result st with
  | .ok t => .ok t
  | .error e => .err (.HandlerError e)

/-- The read loop of `SseSubscriber::subscribe` (src/sse/subscriber.rs lines
47-69), with the per-line processing of `SseConnection::read` unfolded into
the recursion so that the function is structural in the socket script (the
lemma `subscribeLoop_read` below re-establishes the factoring through
`read`). `HandleProgress::Err(e)` returns `HandlerError(e)`. -/
def subscribeLoop {σ T E : Type} (H : Handler σ T E) (st : σ) :
    List SockItem → SubscribeOutcome T E
  | [] => finishWith H st
  | .ioerr e :: _ => .err (.fromConn (.ConnectionError e))
  | .line l :: rest =>
    match HttpStatusLine.from_str l with
    | .ok http_status =>
      if http_status.is_error then
        .err (.fromConn (http_error http_status rest).1)
      else subscribeLoop H st rest
    | .error _ =>
      match SseResponse.from_line l with
      | .ok sse_response =>
        match H.handle st sse_response with
        | (st', .Progress) => subscribeLoop H st' rest
        | (st', .Done) => finishWith H st'
        | (_, .Err e) => .err (.HandlerError e)
      | .error _ => subscribeLoop H st rest

/-- The read loop of `SseSubscriber::subscribe_mut` (src/sse/subscriber.rs
lines 81-103): identical to `subscribeLoop` except that the
`HandleProgress::Err(_)` arm executes `todo!()` (modelled by `aborted`). -/
def subscribeMutLoop {σ T E : Type} (H : Handler σ T E) (st : σ) :
    List SockItem → SubscribeOutcome T E
  | [] => finishWith H st
  | .ioerr e :: _ => .err (.fromConn (.ConnectionError e))
  | .line l :: rest =>
    match HttpStatusLine.from_str l with
    | .ok http_status =>
      if http_status.is_error then
        .err (.fromConn (http_error http_status rest).1)
      else subscribeMutLoop H st rest
    | .error _ =>
      match SseResponse.from_line l with
      | .ok sse_response =>
        match H.handle st sse_response with
        | (st', .Progress) => subscribeMutLoop H st' rest
        | (st', .Done) => finishWith H st'
        | (_, .Err _) => .aborted
      | .error _ => subscribeMutLoop H st rest

/-- `SseSubscriber::subscribe` (src/sse/subscriber.rs lines 38-70): connect,
then run the read loop; a connect failure is converted via `From`. -/
def subscribe {σ T E : Type} (H : Handler σ T E) (st : σ)
    (connectRes : Except SseConnectionError (List SockItem)) :
    SubscribeOutcome T E :=
  match connectRes with
  | .error e => .err (.fromConn e)
  | .ok sock => subscribeLoop H st sock

/-- `SseSubscriber::subscribe_mut` (src/sse/subscriber.rs lines 72-104). -/
def subscribe_mut {σ T E : Type} (H : Handler σ T E) (st : σ)
    (connectRes : Except SseConnectionError (List SockItem)) :
    SubscribeOutcome T E :=
  match connectRes with
  | .error e => .err (.fromConn e)
  | .ok sock => subscribeMutLoop H st sock

/-- Instrumented copy of `subscribeLoop`: additionally returns the number of
`handle` calls issued, the number of `result` calls issued, and the socket
items left unread when the loop exits. -/
def subscribeLoopI {σ T E : Type} (H : Handler σ T E) (st : σ) :
    List SockItem → SubscribeOutcome T E × Nat × Nat × List SockItem
  | [] => (finishWith H st, 0, 1, [])
  | .ioerr e :: rest => (.err (.fromConn (.ConnectionError e)), 0, 0, rest)
  | .line l :: rest =>
    match HttpStatusLine.from_str l with
    | .ok http_status =>
      if http_status.is_error then
        ((.err (.fromConn (http_error http_status rest).1)), 0, 0,
          (http_error http_status rest).2)
      else subscribeLoopI H st rest
    | .error _ =>
      match SseResponse.from_line l with
      | .ok sse_response =>
        match H.handle st sse_response with
        | (st', .Progress) =>
          let r := subscribeLoopI H st' rest
          (r.1, r.2.1 + 1, r.2.2.1, r.2.2.2)
        | (st', .Done) => (finishWith H st', 1, 1, rest)
        | (_, .Err e) => (.err (.HandlerError e), 1, 0, rest)
      | .error _ => subscribeLoopI H st rest

/-- `RunsDone H st sock n st' rem`: starting from handler state `st` on
socket script `sock`, the connection delivers `n` events, the handler answers
`Progress` on the first `n - 1` of them and `Done` on the `n`-th, reaching
handler state `st'` with `rem` socket items not yet consumed. -/
inductive RunsDone {σ T E : Type} (H : Handler σ T E) :
    σ → List SockItem → Nat → σ → List SockItem → Prop where
  | last {st sock ev rest st'} :
      read sock = (.ok (.Progress ev), rest) →
      H.handle st ev = (st', .Done) →
      RunsDone H st sock 1 st' rest
  | step {st sock ev rest st' n st'' rem} :
      read sock = (.ok (.Progress ev), rest) →
      H.handle st ev = (st', .Progress) →
      RunsDone H st' rest n st'' rem →
      RunsDone H st sock (n + 1) st'' rem

/-! ## The retry driver (modelled from the spec)

`lib.rs` and `src/bin/handler.rs` call `SseHandler::new(event_handler,
error_handler)` and `handle_event(...)` of an `event_handler` module revision
(the one with `SseResult::{Finished, Continue, Retry}` and
`ErrorHandler::catch`, driven by `return_or_retry`) that is not present under
src; only its callers and the `SseResult`/`ErrorHandler` declarations in
lib.rs are. The driver below is modelled from the spec. -/

/-- `SseResult` as returned by `ErrorHandler::catch` (src/lib.rs lines
13-27). -/
inductive CatchResult (T : Type) where
  | Finished (t : T)
  | Continue
  | Retry

/-- The `ErrorHandler` collaborator (src/lib.rs lines 24-27): receives every
non-application error. The Rust method is named `catch`; that word is a Lean
keyword, so the field is `catchErr`. -/
structure ErrCatcher (T : Type) where
  catchErr : SseConnectionError → CatchResult T

/-- One connect-and-read attempt: a scripted connect outcome plus a run of
the read loop over the connected socket. -/
def runAttempt {T : Type} (runOne : List SockItem → Except SseConnectionError T) :
    Except SseConnectionError (List SockItem) → Except SseConnectionError T
  | .error ce => .error ce
  | .ok sock => runOne sock

/-- Modelled from the spec: the read-loop driver (`handle_event` /
`return_or_retry`) of the event_handler revision referenced by lib.rs and
src/bin/handler.rs, which is missing from src. Per spec §4.3: every
non-application error is routed to the optional error handler; `Retry`
restarts the entire loop from a fresh connect+send (the next scripted
connect attempt — a full-request replay, not a stream resume);
`Finished(v)` ends with `v`; with no error handler registered the error is
propagated unchanged to the caller. `none` as overall result means the
attempt schedule was exhausted while still retrying. -/
def replayLoop {T : Type} (eh : Option (ErrCatcher T))
    (runOne : List SockItem → Except SseConnectionError T) :
    List (Except SseConnectionError (List SockItem)) →
    Option (Except SseConnectionError T)
  | [] => none
  | att :: more =>
    match runAttempt runOne att with
    | .ok t => some (.ok t)
    | .error e =>
      match eh with
      | none => some (.error e)
      | some c =>
        match c.catchErr e with
        | .Finished t => some (.ok t)
        | .Retry => replayLoop eh runOne more
        | .Continue => some (.error e)

/-! ## Helper lemmas: strings -/

/-- Appending a suffix whose characters do not occur in the pattern does not
change whether the pattern is a prefix. -/
theorem isPrefixOf_append_indep (p t : List Char) (h : ∀ c, c ∈ t → c ∉ p) :
    ∀ x, p.isPrefixOf (x ++ t) = p.isPrefixOf x := by
  induction p with
  | nil => intro x; simp [List.isPrefixOf]
  | cons a p' ih =>
    intro x
    cases x with
    | nil =>
      simp only [List.nil_append]
      cases t with
      | nil => rfl
      | cons c t' =>
        simp only [List.isPrefixOf]
        have hc : c ∉ a :: p' := h c (by simp)
        have : (a == c) = false := by
          simp only [beq_eq_false_iff_ne]
          intro hac
          exact hc (hac ▸ List.mem_cons_self a p')
        simp [this]
    | cons b x' =>
      simp only [List.cons_append, List.isPrefixOf, List.append_eq]
      have ih' := ih (fun c hc hcp => h c hc (List.mem_cons_of_mem a hcp)) x'
      rw [ih']

/-- A pattern is a prefix of itself followed by anything. -/
theorem isPrefixOf_append_self (p x : List Char) : p.isPrefixOf (p ++ x) = true := by
  induction p with
  | nil => simp [List.isPrefixOf]
  | cons a p' ih => simp [List.isPrefixOf, ih]

/-- `containsSeq` is unaffected by appending a suffix that contains no
occurrence and whose characters do not occur in the pattern. -/
theorem containsSeq_append_indep (p0 : Char) (ps t : List Char)
    (h : ∀ c, c ∈ t → c ∉ p0 :: ps) (ht : containsSeq p0 ps t = false) :
    ∀ s, containsSeq p0 ps s = false → containsSeq p0 ps (s ++ t) = false := by
  intro s
  induction s with
  | nil => intro _; simpa using ht
  | cons c s' ih =>
    intro hs
    simp only [containsSeq, Bool.or_eq_false_iff] at hs
    have h1 : (p0 :: ps).isPrefixOf ((c :: s') ++ t) = false := by
      rw [isPrefixOf_append_indep (p0 :: ps) t h (c :: s')]
      exact hs.1
    simp only [List.cons_append, containsSeq, List.append_eq]
    simp only [List.cons_append] at h1
    rw [h1]
    simp only [Bool.false_or]
    exact ih hs.2

/-- If the pattern occurs nowhere, deletion-replace is the identity. -/
theorem replaceDelAux_of_not_contains (p0 : Char) (ps : List Char) :
    ∀ s, containsSeq p0 ps s = false → replaceDelAux p0 ps 0 s = s := by
  intro s
  induction s with
  | nil => intro _; rfl
  | cons c s' ih =>
    intro hs
    simp only [containsSeq, Bool.or_eq_false_iff] at hs
    simp only [replaceDelAux, hs.1, Bool.false_eq_true, if_false]
    rw [ih hs.2]

/-- The skip counter consumes exactly the next `a.length` characters. -/
theorem replaceDelAux_skip (p0 : Char) (ps : List Char) :
    ∀ a x, replaceDelAux p0 ps a.length (a ++ x) = replaceDelAux p0 ps 0 x := by
  intro a
  induction a with
  | nil => intro x; rfl
  | cons c a' ih => intro x; simpa [replaceDelAux] using ih x

/-- Deleting a non-self-overlapping leading occurrence: `replaceDel` on
`pat ++ rest` removes the leading `pat` and proceeds on `rest`. -/
theorem replaceDel_cons_match (p0 : Char) (ps rest : List Char) :
    replaceDel p0 ps ((p0 :: ps) ++ rest) = replaceDelAux p0 ps 0 rest := by
  unfold replaceDel
  simp only [List.cons_append, replaceDelAux, List.append_eq]
  rw [show p0 :: (ps ++ rest) = (p0 :: ps) ++ rest from rfl,
    isPrefixOf_append_self (p0 :: ps) rest]
  simp only [if_true]
  exact replaceDelAux_skip p0 ps ps rest

/-- `dropWhile` over an append whose left part is dropped entirely. -/
theorem dropWhile_append_eq_nil (p : Char → Bool) (a b : List Char)
    (h : a.dropWhile p = []) : (a ++ b).dropWhile p = b.dropWhile p := by
  induction a with
  | nil => rfl
  | cons c a' ih =>
    by_cases hc : p c = true
    · simp only [List.dropWhile_cons, hc, if_true] at h
      simp only [List.cons_append, List.dropWhile_cons, hc, if_true]
      exact ih h
    · simp only [List.dropWhile_cons, hc, if_false] at h
      cases h

/-- `dropWhile` over an append whose left part survives partially. -/
theorem dropWhile_append_eq_cons (p : Char → Bool) (a b : List Char)
    (c : Char) (cs : List Char) (h : a.dropWhile p = c :: cs) :
    (a ++ b).dropWhile p = c :: (cs ++ b) := by
  induction a with
  | nil => cases h
  | cons d a' ih =>
    by_cases hd : p d = true
    · simp only [List.dropWhile_cons, hd, if_true] at h
      simp only [List.cons_append, List.dropWhile_cons, hd, if_true]
      exact ih h
    · simp only [List.dropWhile_cons, hd, if_false] at h
      cases h
      simp [List.dropWhile_cons, hd]

/-- Rust `trim` ignores one leading space and a trailing CRLF. -/
theorem trim_space_crlf (s : List Char) :
    trim (' ' :: (s ++ ['\r', '\n'])) = trim s := by
  have hrev : (' ' :: (s ++ ['\r', '\n'])).reverse
      = '\n' :: '\r' :: (s.reverse ++ [' ']) := by
    simp [List.reverse_cons, List.reverse_append]
  unfold trim trimR trimL
  rw [hrev]
  have h1 : List.dropWhile isWs ('\n' :: '\r' :: (s.reverse ++ [' ']))
      = List.dropWhile isWs (s.reverse ++ [' ']) := by
    simp [List.dropWhile_cons, isWs]
  rw [h1]
  cases h : s.reverse.dropWhile isWs with
  | nil =>
    rw [dropWhile_append_eq_nil isWs s.reverse [' '] h]
    rfl
  | cons c cs =>
    rw [dropWhile_append_eq_cons isWs s.reverse [' '] c cs h]
    have h2 : (c :: (cs ++ [' '])).reverse = ' ' :: (cs.reverse ++ [c]) := by simp
    rw [h2, List.reverse_cons]
    simp [List.dropWhile_cons, isWs]

/-- Evaluation of `SseResponse::trim` on a well-shaped field line: for a
pattern that contains neither `\r` nor `\n` and does not start with a space,
and a payload without an occurrence of the pattern,
`(pat ++ " " ++ s ++ "\r\n").replace(pat, "").trim()` is `s.trim()`. -/
theorem sseFieldTrim_eval (p0 : Char) (ps s : List Char)
    (hR : '\r' ∉ p0 :: ps) (hN : '\n' ∉ p0 :: ps) (hsp : p0 ≠ ' ')
    (hc : containsSeq p0 ps s = false) :
    sseFieldTrim p0 ps ((p0 :: ps) ++ (' ' :: (s ++ ['\r', '\n']))) = trim s := by
  have hp0r : p0 ≠ '\r' := fun h => hR (by simp [h])
  have hp0n : p0 ≠ '\n' := fun h => hN (by simp [h])
  have hbr : (p0 == '\r') = false := beq_eq_false_iff_ne.mpr hp0r
  have hbn : (p0 == '\n') = false := beq_eq_false_iff_ne.mpr hp0n
  have hbs : (p0 == ' ') = false := beq_eq_false_iff_ne.mpr hsp
  have hmem : ∀ ch, ch ∈ ['\r', '\n'] → ch ∉ p0 :: ps := by
    intro ch hch
    rcases (by simpa using hch : ch = '\r' ∨ ch = '\n') with h | h
    · exact h ▸ hR
    · exact h ▸ hN
  have ht : containsSeq p0 ps ['\r', '\n'] = false := by
    simp [containsSeq, List.isPrefixOf, hbr, hbn]
  have hst : containsSeq p0 ps (s ++ ['\r', '\n']) = false :=
    containsSeq_append_indep p0 ps _ hmem ht s hc
  have hsp' : containsSeq p0 ps (' ' :: (s ++ ['\r', '\n'])) = false := by
    simp only [containsSeq, Bool.or_eq_false_iff]
    exact ⟨by simp [List.isPrefixOf, hbs], hst⟩
  unfold sseFieldTrim
  rw [replaceDel_cons_match p0 ps (' ' :: (s ++ ['\r', '\n'])),
    replaceDelAux_of_not_contains p0 ps _ hsp']
  exact trim_space_crlf s

/-! ## Helper lemmas: splitting -/

/-- `split` never yields an empty list of pieces. -/
theorem splitOnChar_ne_nil (sep : Char) : ∀ l, splitOnChar sep l ≠ [] := by
  intro l
  cases l with
  | nil => simp [splitOnChar]
  | cons c rest =>
    by_cases h : c = sep
    · simp [splitOnChar, h]
    · simp only [splitOnChar, h, if_false]
      cases splitOnChar sep rest <;> simp

/-- Splitting `a ++ sep :: b` when `a` is separator-free isolates `a`. -/
theorem splitOnChar_append (sep : Char) (a b : List Char) (h : sep ∉ a) :
    splitOnChar sep (a ++ sep :: b) = a :: splitOnChar sep b := by
  induction a with
  | nil => simp [splitOnChar]
  | cons c a' ih =>
    have hc : ¬ c = sep := fun hcs => h (by simp [hcs])
    have ih' := ih (fun hmem => h (List.mem_cons_of_mem c hmem))
    simp only [List.cons_append, splitOnChar, hc, if_false, List.append_eq]
    rw [ih']

/-- `splitn(2, ":")` finds nothing exactly when the string has no colon. -/
theorem splitFirstColon_none_iff : ∀ l, splitFirstColon l = none ↔ ':' ∉ l := by
  intro l
  induction l with
  | nil => simp [splitFirstColon]
  | cons c rest ih =>
    by_cases h : c = ':'
    · simp [splitFirstColon, h]
    · simp only [splitFirstColon, h, if_false, List.mem_cons]
      cases hsc : splitFirstColon rest with
      | none =>
        have hrest : ':' ∉ rest := ih.mp hsc
        constructor
        · intro _ hor
          rcases hor with hor | hor
          · exact h hor.symm
          · exact hrest hor
        · intro _
          rfl
      | some p =>
        have hrest : ':' ∈ rest := by
          by_contra hn
          rw [ih.mpr hn] at hsc
          cases hsc
        constructor
        · intro hmap
          simp at hmap
        · intro hnot
          exact absurd (Or.inr hrest) hnot

/-! ## Helper lemmas: status line parsing -/

/-- A line whose first character is neither `H` nor a space can never parse
as a status line: its first space-separated token differs from `HTTP/1.1`. -/
theorem from_str_head_ne (c : Char) (x : List Char) (hH : c ≠ 'H') (hsp : c ≠ ' ') :
    HttpStatusLine.from_str (c :: x) = .error .InvalidFormat := by
  have hsplit : ∃ g gs, splitOnChar ' ' (c :: x) = (c :: g) :: gs := by
    simp only [splitOnChar, hsp, if_false]
    cases splitOnChar ' ' x with
    | nil => exact ⟨[], [], rfl⟩
    | cons g gs => exact ⟨g, gs, rfl⟩
  obtain ⟨g, gs, hsplit⟩ := hsplit
  unfold HttpStatusLine.from_str
  rw [hsplit]
  cases gs with
  | nil => rfl
  | cons s2 gs2 =>
    cases gs2 with
    | nil => rfl
    | cons s3 gs3 =>
      have hv : HttpVersion.from_str (c :: g) = none := by
        unfold HttpVersion.from_str
        rw [if_neg]
        intro heq
        exact hH (List.cons.injEq .. ▸ heq).1
      dsimp only
      rw [hv]

/-- Parsing `"HTTP/1.1 " ++ ds ++ " " ++ r` when `ds` is space-free and
parses as the u32 value `c`: the result is `HTTP/1.1` with `from_num c`,
regardless of the reason text `r`. -/
theorem from_str_status (ds r : List Char) (c : Nat)
    (hds : ' ' ∉ ds) (hp : parseU32 ds = some c) :
    HttpStatusLine.from_str (("HTTP/1.1 ").toList ++ (ds ++ (' ' :: r)))
      = .ok ⟨.V1_1, HttpStatusCode.from_num c⟩ := by
  have hshape : ("HTTP/1.1 ").toList ++ (ds ++ (' ' :: r))
      = ("HTTP/1.1").toList ++ (' ' :: (ds ++ (' ' :: r))) := rfl
  rw [hshape]
  unfold HttpStatusLine.from_str
  rw [splitOnChar_append ' ' ("HTTP/1.1").toList (ds ++ (' ' :: r)) (by decide),
    splitOnChar_append ' ' ds r hds]
  cases h3 : splitOnChar ' ' r with
  | nil => exact absurd h3 (splitOnChar_ne_nil ' ' r)
  | cons g gs =>
    have hv : HttpVersion.from_str ("HTTP/1.1").toList = some .V1_1 := rfl
    dsimp only
    rw [hv]
    dsimp only
    unfold HttpStatusCode.from_num_str
    rw [hp]
    rfl

/-- `(HttpStatusCode::from_num c).is_error` holds exactly when `c ≥ 400` and
`c` is one of the recognized status codes; every unrecognized code maps to
`Unknown`, whose `num()` is 0, and is therefore treated as non-error. -/
theorem from_num_is_error_iff (c : Nat) :
    ((HttpStatusCode.from_num c).is_error = true)
      ↔ (400 ≤ c ∧ HttpStatusCode.from_num c ≠ .Unknown) := by
  unfold HttpStatusCode.from_num
  split
  all_goals first | decide | simp [HttpStatusCode.is_error, HttpStatusCode.num]

/-! ## Helper lemmas: the connection read loop -/

/-- `read` on an error status line: hand off to the accumulation. -/
theorem read_status_error (l : List Char) (st : HttpStatusLine)
    (rest : List SockItem) (hok : HttpStatusLine.from_str l = .ok st)
    (herr : st.is_error = true) :
    read (.line l :: rest)
      = (.error (http_error st rest).1, (http_error st rest).2) := by
  simp only [read]
  rw [hok]
  simp [herr]

/-- `read` on a non-error status line: the line is skipped. -/
theorem read_status_skip (l : List Char) (st : HttpStatusLine)
    (rest : List SockItem) (hok : HttpStatusLine.from_str l = .ok st)
    (herr : st.is_error = false) :
    read (.line l :: rest) = read rest := by
  simp only [read]
  rw [hok]
  simp [herr]

/-- `read` on an SSE field line (checked only after the status-line test
fails): one event is delivered. -/
theorem read_progress (l : List Char) (ev : SseResponse) (rest : List SockItem)
    (hst : HttpStatusLine.from_str l = .error .InvalidFormat)
    (hsse : SseResponse.from_line l = .ok ev) :
    read (.line l :: rest) = (.ok (.Progress ev), rest) := by
  simp only [read]
  rw [hst]
  dsimp only
  rw [hsse]

/-- `read` on any other line (header-shaped or not): the line is skipped. -/
theorem read_other_skip (l : List Char) (e : SseResponseError)
    (rest : List SockItem)
    (hst : HttpStatusLine.from_str l = .error .InvalidFormat)
    (hsse : SseResponse.from_line l = .error e) :
    read (.line l :: rest) = read rest := by
  simp only [read]
  rw [hst]
  dsimp only
  rw [hsse]
  dsimp only
  cases HttpHeader.from_line l <;> rfl

/-- The fused instrumented subscribe loop factors through `read`: each
iteration behaves exactly as `loop { conn.read() }` with the handler
dispatch of `SseSubscriber::subscribe`. -/
theorem subscribeLoopI_read {σ T E : Type} (H : Handler σ T E) (st : σ)
    (sock : List SockItem) :
    subscribeLoopI H st sock =
      match read sock with
      | (.ok .Done, _) => (finishWith H st, 0, 1, ([] : List SockItem))
      | (.error ce, rem) => (.err (.fromConn ce), 0, 0, rem)
      | (.ok (.Progress ev), rest) =>
        match H.handle st ev with
        | (st', .Progress) =>
          ((subscribeLoopI H st' rest).1, (subscribeLoopI H st' rest).2.1 + 1,
            (subscribeLoopI H st' rest).2.2.1, (subscribeLoopI H st' rest).2.2.2)
        | (st', .Done) => (finishWith H st', 1, 1, rest)
        | (_, .Err e) => (.err (.HandlerError e), 1, 0, rest) := by
  induction sock generalizing st with
  | nil => rfl
  | cons it rest ih =>
    cases it with
    | ioerr e => rfl
    | line l =>
      simp only [read, subscribeLoopI]
      cases hst : HttpStatusLine.from_str l with
      | ok http_status =>
        dsimp only
        by_cases herr : http_status.is_error = true
        · simp [herr]
        · simp only [Bool.not_eq_true] at herr
          simp only [herr, Bool.false_eq_true, if_false]
          exact ih st
      | error e2 =>
        dsimp only
        cases hsse : SseResponse.from_line l with
        | ok ev => dsimp only
        | error e3 =>
          dsimp only
          cases hh : HttpHeader.from_line l <;> exact ih st

/-! ## Claim theorems -/

/-- Claim C1 (code bug): on a delivered event whose handler answer is
`Err(e)`, `subscribe` stops and returns `HandlerError(e)` as the claim and
spec state, but `subscribe_mut` — the mutable handler shape — executes the
`todo!()` left at src/sse/subscriber.rs line 93 and panics (`aborted`)
instead of returning `HandlerError(e)`. Both behaviours are evaluated here
on the same stream (a 200 status line followed by one data line) and the
same always-`Err` handler. -/
theorem c1_subscribe_mut_todo_on_handler_err :
    subscribe
        (⟨fun _ _ => ((), HandleProgress.Err 5), fun _ => .ok 0⟩ : Handler Unit Nat Nat) ()
        (.ok [.line ("HTTP/1.1 200 OK\r\n").toList, .line ("data: x\r\n").toList])
      = .err (.HandlerError 5)
    ∧ subscribe_mut
        (⟨fun _ _ => ((), HandleProgress.Err 5), fun _ => .ok 0⟩ : Handler Unit Nat Nat) ()
        (.ok [.line ("HTTP/1.1 200 OK\r\n").toList, .line ("data: x\r\n").toList])
      = .aborted :=
  ⟨rfl, rfl⟩

/-- Claim C2 counterexample: status code 499 is ≥ 400, yet the connection
does not route it to error accumulation: 499 is not in the recognized list,
`from_num` maps it to `Unknown`, whose `num()` is 0, so `is_error()` is
false and `read` streams on, delivering the next data line as `Progress`. -/
theorem c2_unknown_499_streams_on :
    HttpStatusLine.from_str ("HTTP/1.1 499 Whatever\r\n").toList
      = .ok ⟨.V1_1, .Unknown⟩
    ∧ HttpStatusCode.Unknown.is_error = false
    ∧ read [.line ("HTTP/1.1 499 Whatever\r\n").toList,
        .line ("data: x\r\n").toList]
      = (.ok (.Progress (.Data ("x").toList)), []) :=
  ⟨rfl, rfl, rfl⟩

/-- Claim C2 (amended): for a received status line `HTTP/1.1 <ds> <r>` whose
code field parses as the number `c`, `read` routes by `is_error()` of the
mapped enum value `from_num c` — error accumulation when it holds, skip and
continue otherwise — regardless of the reason text `r`; and `is_error` of
the mapped value holds iff `c ≥ 400` AND `c` is a recognized code (every
unrecognized code collapses to `Unknown`, numeric value 0, hence is treated
as non-error). -/
theorem c2_status_routing_amended (ds r l : List Char) (c : Nat)
    (rest : List SockItem) (hds : ' ' ∉ ds) (hp : parseU32 ds = some c)
    (hl : l = ("HTTP/1.1 ").toList ++ (ds ++ (' ' :: r))) :
    HttpStatusLine.from_str l = .ok ⟨.V1_1, HttpStatusCode.from_num c⟩
    ∧ ((HttpStatusCode.from_num c).is_error = true →
        read (.line l :: rest)
          = (.error (http_error ⟨.V1_1, HttpStatusCode.from_num c⟩ rest).1,
             (http_error ⟨.V1_1, HttpStatusCode.from_num c⟩ rest).2))
    ∧ ((HttpStatusCode.from_num c).is_error = false →
        read (.line l :: rest) = read rest)
    ∧ ((HttpStatusCode.from_num c).is_error = true
        ↔ (400 ≤ c ∧ HttpStatusCode.from_num c ≠ .Unknown)) := by
  subst hl
  have h1 := from_str_status ds r c hds hp
  refine ⟨h1, ?_, ?_, from_num_is_error_iff c⟩
  · intro herr
    exact read_status_error _ _ rest h1 herr
  · intro hok
    exact read_status_skip _ _ rest h1 hok

/-- Witness for C2 (amended) at the concrete status line
`HTTP/1.1 404 Not Found`. -/
theorem c2_status_routing_amended_witness :
    HttpStatusLine.from_str
        (("HTTP/1.1 ").toList ++ (("404").toList ++ (' ' :: ("Not Found\r\n").toList)))
      = .ok ⟨.V1_1, HttpStatusCode.from_num 404⟩
    ∧ ((HttpStatusCode.from_num 404).is_error = true →
        read (.line (("HTTP/1.1 ").toList
            ++ (("404").toList ++ (' ' :: ("Not Found\r\n").toList))) :: [])
          = (.error (http_error ⟨.V1_1, HttpStatusCode.from_num 404⟩ []).1,
             (http_error ⟨.V1_1, HttpStatusCode.from_num 404⟩ []).2))
    ∧ ((HttpStatusCode.from_num 404).is_error = false →
        read (.line (("HTTP/1.1 ").toList
            ++ (("404").toList ++ (' ' :: ("Not Found\r\n").toList))) :: []) = read [])
    ∧ ((HttpStatusCode.from_num 404).is_error = true
        ↔ (400 ≤ 404 ∧ HttpStatusCode.from_num 404 ≠ .Unknown)) :=
  c2_status_routing_amended ("404").toList ("Not Found\r\n").toList _ 404 []
    (by decide) (by decide) rfl

/-- Claim C3 counterexample: for s = `xdata:y` (no embedded newlines),
parsing `"data: " ++ s ++ "\r\n"` yields `Data "xy"`, because
`SseResponse::trim` uses `replace` and deletes the inner `data:` too; the
claim demands `Data (s.trim())` = `Data "xdata:y"`. -/
theorem c3_data_replace_collapses :
    SseResponse.from_line (("data: ").toList ++ (("xdata:y").toList ++ ("\r\n").toList))
      = .ok (.Data ("xy").toList)
    ∧ trim ("xdata:y").toList = ("xdata:y").toList
    ∧ ("xy").toList ≠ ("xdata:y").toList :=
  ⟨rfl, rfl, by decide⟩

/-- Claim C3 (amended): for every string s without embedded newlines AND
without an occurrence of the substring `data:`, parsing
`"data: " ++ s ++ "\r\n"` in body state yields exactly `Data (s.trim())`. -/
theorem c3_data_round_trip_amended (s : List Char)
    (_hnl : '\n' ∉ s) (_hcr : '\r' ∉ s)
    (hc : containsSeq 'd' ("ata:").toList s = false) :
    SseResponse.from_line (("data: ").toList ++ (s ++ ("\r\n").toList))
      = .ok (.Data (trim s)) := by
  have hshape : ("data: ").toList ++ (s ++ ("\r\n").toList)
      = ("data:").toList ++ (' ' :: (s ++ ['\r', '\n'])) := rfl
  have hpre : (("data:").toList.isPrefixOf
      (("data:").toList ++ (' ' :: (s ++ ['\r', '\n'])))) = true :=
    isPrefixOf_append_self _ _
  have heval : sseFieldTrim 'd' ("ata:").toList
      (("data:").toList ++ (' ' :: (s ++ ['\r', '\n']))) = trim s :=
    sseFieldTrim_eval 'd' ("ata:").toList s (by decide) (by decide) (by decide) hc
  rw [hshape]
  unfold SseResponse.from_line
  rw [if_pos hpre, heval]

/-- Witness for C3 (amended) at s = `hello  world` (inner whitespace and
surrounding trim behaviour exercised). -/
theorem c3_data_round_trip_amended_witness :
    SseResponse.from_line (("data: ").toList
        ++ (("hello  world").toList ++ ("\r\n").toList))
      = .ok (.Data (trim ("hello  world").toList)) :=
  c3_data_round_trip_amended ("hello  world").toList
    (by decide) (by decide) (by decide)

/-- Claim C4 counterexample: the line `retry: abc` does produce
`InvalidRetry` at the parser level, but `SseConnection::read` discards that
error (`if let Ok(...)`): the line matches the HTTP header grammar and the
loop silently skips it, delivering the next data line — the parse error is
never surfaced to the caller of `read`. -/
theorem c4_invalid_retry_dropped :
    SseResponse.from_line ("retry: abc\r\n").toList = .error .InvalidRetry
    ∧ HttpHeader.from_line ("retry: abc\r\n").toList
        = .ok ⟨[(("retry").toList, ("abc").toList)]⟩
    ∧ read [.line ("retry: abc\r\n").toList, .line ("data: ok\r\n").toList]
        = (.ok (.Progress (.Data ("ok").toList)), []) :=
  ⟨rfl, rfl, rfl⟩

/-- Claim C4 (amended): for every body line `retry: v` whose value does not
parse as a u32 (and which contains no nested `retry:` and no padding around
`v`), `SseResponse::from_line` reports the `InvalidRetry` parse error, but
`SseConnection::read` silently skips the line instead of surfacing the
error. -/
theorem c4_invalid_retry_amended (v : List Char) (rest : List SockItem)
    (hv : trim v = v) (hcont : containsSeq 'r' ("etry:").toList v = false)
    (hp : parseU32 v = none) :
    SseResponse.from_line (("retry: ").toList ++ (v ++ ("\r\n").toList))
      = .error .InvalidRetry
    ∧ read (.line (("retry: ").toList ++ (v ++ ("\r\n").toList)) :: rest)
        = read rest := by
  have hshape : ("retry: ").toList ++ (v ++ ("\r\n").toList)
      = ("retry:").toList ++ (' ' :: (v ++ ['\r', '\n'])) := rfl
  have hd : (("data:").toList.isPrefixOf
      (("retry:").toList ++ (' ' :: (v ++ ['\r', '\n'])))) = false := rfl
  have he : (("event:").toList.isPrefixOf
      (("retry:").toList ++ (' ' :: (v ++ ['\r', '\n'])))) = false := rfl
  have hi : (("id:").toList.isPrefixOf
      (("retry:").toList ++ (' ' :: (v ++ ['\r', '\n'])))) = false := rfl
  have hre : (("retry:").toList.isPrefixOf
      (("retry:").toList ++ (' ' :: (v ++ ['\r', '\n'])))) = true :=
    isPrefixOf_append_self _ _
  have heval : sseFieldTrim 'r' ("etry:").toList
      (("retry:").toList ++ (' ' :: (v ++ ['\r', '\n']))) = trim v :=
    sseFieldTrim_eval 'r' ("etry:").toList v (by decide) (by decide) (by decide) hcont
  have hfl : SseResponse.from_line (("retry: ").toList ++ (v ++ ("\r\n").toList))
      = .error .InvalidRetry := by
    rw [hshape]
    unfold SseResponse.from_line
    rw [hd, he, hi]
    simp only [Bool.false_eq_true, if_false]
    rw [if_pos hre, heval, hv, hp]
  have hst : HttpStatusLine.from_str (("retry: ").toList ++ (v ++ ("\r\n").toList))
      = .error .InvalidFormat :=
    from_str_head_ne 'r' (("etry: ").toList ++ (v ++ ("\r\n").toList))
      (by decide) (by decide)
  exact ⟨hfl, read_other_skip _ .InvalidRetry rest hst hfl⟩

/-- Witness for C4 (amended) at v = `abc`, with a following data line. -/
theorem c4_invalid_retry_amended_witness :
    SseResponse.from_line (("retry: ").toList ++ (("abc").toList ++ ("\r\n").toList))
      = .error .InvalidRetry
    ∧ read (.line (("retry: ").toList ++ (("abc").toList ++ ("\r\n").toList))
        :: [.line ("data: ok\r\n").toList])
      = read [.line ("data: ok\r\n").toList] :=
  c4_invalid_retry_amended ("abc").toList [.line ("data: ok\r\n").toList]
    (by decide) (by decide) (by decide)

/-- Claim C5 counterexample: while a 404 accumulation is in flight, the next
line is the perfectly valid status line `HTTP/1.1 200 OK` — yet the
accumulation is not discarded and restarted: `http_error` folds the status
line verbatim into the error body (it has no colon, so it fails the header
grammar and is appended as body text). -/
theorem c5_status_line_folded_into_body :
    read [.line ("HTTP/1.1 404 Not Found\r\n").toList,
        .line ("HTTP/1.1 200 OK\r\n").toList]
      = (.error (.HttpError (HttpResponse.new ⟨.V1_1, .NotFound⟩ HttpHeader.new
          (HttpBody.from_line ("HTTP/1.1 200 OK\r\n").toList))), [])
    ∧ HttpStatusLine.from_str ("HTTP/1.1 200 OK\r\n").toList = .ok ⟨.V1_1, .OK⟩ :=
  ⟨rfl, rfl⟩

/-- Claim C5 (amended): at most one `HttpErrorResponse` accumulation is in
flight at a time — `read` hands off to a single `http_error` accumulation
that runs to end-of-stream — but a new valid status line read while the
accumulation is in flight is NOT discarded-and-restarted: being colon-free
it fails the header grammar and is appended verbatim to the error body. -/
theorem c5_single_accumulation_amended (l l2 : List Char)
    (st st2 : HttpStatusLine) (rest rest2 : List SockItem)
    (h : HttpHeader) (b : HttpBody)
    (hok : HttpStatusLine.from_str l = .ok st) (herr : st.is_error = true)
    (_hok2 : HttpStatusLine.from_str l2 = .ok st2) (hcol : ':' ∉ l2) :
    read (.line l :: rest)
      = (.error (http_error st rest).1, (http_error st rest).2)
    ∧ httpErrorAcc h b (.line l2 :: rest2)
        = httpErrorAcc h (b.concat (HttpBody.from_line l2)) rest2 := by
  refine ⟨read_status_error l st rest hok herr, ?_⟩
  have hh : HttpHeader.from_line l2 = .error .InvalidFormat := by
    unfold HttpHeader.from_line
    rw [(splitFirstColon_none_iff l2).mpr hcol]
  simp [httpErrorAcc, hh]

/-- Witness for C5 (amended): a 404 accumulation and a mid-accumulation
`HTTP/1.1 200 OK` line. -/
theorem c5_single_accumulation_amended_witness :
    read (.line ("HTTP/1.1 404 Not Found\r\n").toList :: [])
      = (.error (http_error ⟨.V1_1, .NotFound⟩ []).1,
         (http_error ⟨.V1_1, .NotFound⟩ []).2)
    ∧ httpErrorAcc HttpHeader.new HttpBody.new
        (.line ("HTTP/1.1 200 OK\r\n").toList :: [])
      = httpErrorAcc HttpHeader.new
          (HttpBody.new.concat (HttpBody.from_line ("HTTP/1.1 200 OK\r\n").toList)) [] :=
  c5_single_accumulation_amended ("HTTP/1.1 404 Not Found\r\n").toList
    ("HTTP/1.1 200 OK\r\n").toList ⟨.V1_1, .NotFound⟩ ⟨.V1_1, .OK⟩ [] []
    HttpHeader.new HttpBody.new rfl rfl rfl (by decide)

/-- Claim C6 counterexample: a mid-stream socket error (io error tag 7)
arriving while the 404 error response is being accumulated is swallowed by
`map_or(None, |r| r)` — the read returns the accumulated `HttpError`, not
`ConnectionError`, contradicting the claim's "including when the error
occurs while an HTTP error response is being accumulated". -/
theorem c6_ioerror_during_accumulation_swallowed :
    read [.line ("HTTP/1.1 404 Not Found\r\n").toList, .ioerr 7]
      = (.error (.HttpError (HttpResponse.new ⟨.V1_1, .NotFound⟩
          HttpHeader.new HttpBody.new)), [])
    ∧ read [.line ("HTTP/1.1 404 Not Found\r\n").toList, .ioerr 7]
        ≠ (.error (.ConnectionError 7), []) :=
  ⟨rfl, by decide⟩

/-- Claim C6 (amended): a socket error in the main `read` loop is returned
as `ConnectionError` carrying the underlying io error; but a socket error
during `http_error` accumulation is collapsed to end-of-stream by
`map_or(None, |r| r)`, silently finalizing the accumulated response. -/
theorem c6_connection_error_amended (e : Nat) (rest : List SockItem)
    (h : HttpHeader) (b : HttpBody) :
    read (.ioerr e :: rest) = (.error (.ConnectionError e), rest)
    ∧ httpErrorAcc h b (.ioerr e :: rest) = (h, b, rest) :=
  ⟨rfl, rfl⟩

/-- Claim C7: feeding status 404, header A, header B, body line X, body
line Y, then EOF produces an `HttpErrorResponse` whose headers are exactly
A and B and whose body is X followed by Y, concatenated in that order. -/
theorem c7_error_accumulation_order (la lb lx ly ka va kb vb : List Char)
    (ha : HttpHeader.from_line la = .ok ⟨[(ka, va)]⟩)
    (hb : HttpHeader.from_line lb = .ok ⟨[(kb, vb)]⟩)
    (hk : ka ≠ kb)
    (hx : HttpHeader.from_line lx = .error .InvalidFormat)
    (hy : HttpHeader.from_line ly = .error .InvalidFormat) :
    read [.line ("HTTP/1.1 404 Not Found\r\n").toList,
        .line la, .line lb, .line lx, .line ly]
      = (.error (.HttpError (HttpResponse.new ⟨.V1_1, .NotFound⟩
          ⟨[(ka, va), (kb, vb)]⟩ ⟨lx ++ ly⟩)), [])
    ∧ (HttpResponse.new ⟨.V1_1, .NotFound⟩
        ⟨[(ka, va), (kb, vb)]⟩ ⟨lx ++ ly⟩).get_header ka = some va
    ∧ (HttpResponse.new ⟨.V1_1, .NotFound⟩
        ⟨[(ka, va), (kb, vb)]⟩ ⟨lx ++ ly⟩).get_header kb = some vb := by
  have hst : HttpStatusLine.from_str ("HTTP/1.1 404 Not Found\r\n").toList
      = .ok ⟨.V1_1, .NotFound⟩ := rfl
  have hr := read_status_error ("HTTP/1.1 404 Not Found\r\n").toList
    ⟨.V1_1, .NotFound⟩ [.line la, .line lb, .line lx, .line ly] hst rfl
  refine ⟨?_, ?_, ?_⟩
  · rw [hr]
    unfold http_error
    simp only [httpErrorAcc, ha, hb, hx, hy]
    simp [HttpHeader.concat, HttpHeader.new, hmInsert, HttpBody.concat,
      HttpBody.new, HttpBody.from_line, HttpResponse.new, hk]
  · simp [HttpResponse.get_header, HttpHeader.get, hmGet]
  · simp [HttpResponse.get_header, HttpHeader.get, hmGet, hk]

/-- Witness for C7 at headers `A: 1`, `B: 2` and body lines `xx`, `yy`. -/
theorem c7_error_accumulation_order_witness :
    read [.line ("HTTP/1.1 404 Not Found\r\n").toList,
        .line ("A: 1\r\n").toList, .line ("B: 2\r\n").toList,
        .line ("xx\r\n").toList, .line ("yy\r\n").toList]
      = (.error (.HttpError (HttpResponse.new ⟨.V1_1, .NotFound⟩
          ⟨[(("A").toList, ("1").toList), (("B").toList, ("2").toList)]⟩
          ⟨("xx\r\n").toList ++ ("yy\r\n").toList⟩)), [])
    ∧ (HttpResponse.new ⟨.V1_1, .NotFound⟩
        ⟨[(("A").toList, ("1").toList), (("B").toList, ("2").toList)]⟩
        ⟨("xx\r\n").toList ++ ("yy\r\n").toList⟩).get_header ("A").toList
      = some ("1").toList
    ∧ (HttpResponse.new ⟨.V1_1, .NotFound⟩
        ⟨[(("A").toList, ("1").toList), (("B").toList, ("2").toList)]⟩
        ⟨("xx\r\n").toList ++ ("yy\r\n").toList⟩).get_header ("B").toList
      = some ("2").toList :=
  c7_error_accumulation_order ("A: 1\r\n").toList ("B: 2\r\n").toList
    ("xx\r\n").toList ("yy\r\n").toList ("A").toList ("1").toList
    ("B").toList ("2").toList rfl rfl (by decide) rfl rfl

/-- Claim C8 counterexample: a handler returning `Done` on the first event
makes the subscriber stop after exactly one `handle` call, with the next
data line still unread (no wait for EOF) — but the final value is obtained
by one call to the handler's `result()` finalization method (the result-call
count is 1, not 0): `HandleProgress::Done` carries no value, so the
subscriber cannot avoid the finalization call the claim rules out. -/
theorem c8_result_called_on_done :
    subscribeLoopI
        (⟨fun k _ => (k + 1, if k = 0 then .Done else .Progress),
          fun k => .ok k⟩ : Handler Nat Nat Nat) 0
        [.line ("HTTP/1.1 200 OK\r\n").toList,
          .line ("data: a\r\n").toList, .line ("data: b\r\n").toList]
      = (.ok 1, 1, 1, [.line ("data: b\r\n").toList])
    ∧ ([SockItem.line ("data: b\r\n").toList] ≠ ([] : List SockItem)) :=
  ⟨rfl, by decide⟩

/-- Claim C8 (amended): if the handler answers `Progress` on the first
`n - 1` delivered events and `Done` on the `n`-th, the subscriber issues
exactly `n` `handle` calls, leaves the remaining socket items unread (it
does not wait for transport EOF), and obtains the final value through
exactly one call to the handler's `result()` finalization method — the same
method used at end-of-stream — rather than through no finalization call. -/
theorem c8_handler_termination_amended {σ T E : Type} (H : Handler σ T E)
    (st : σ) (sock : List SockItem) (n : Nat) (st' : σ) (rem : List SockItem)
    (h : RunsDone H st sock n st' rem) :
    subscribeLoopI H st sock = (finishWith H st', n, 1, rem) := by
  induction h with
  | last hread hhandle =>
    rw [subscribeLoopI_read, hread]
    dsimp only
    rw [hhandle]
  | step hread hhandle _htail ih =>
    rw [subscribeLoopI_read, hread]
    dsimp only
    rw [hhandle]
    dsimp only
    rw [ih]

/-- Witness for C8 (amended): done-on-first-event handler, one handle call,
one result call, second data line left unread. -/
theorem c8_handler_termination_amended_witness :
    subscribeLoopI
        (⟨fun k _ => (k + 1, if k = 0 then .Done else .Progress),
          fun k => .ok k⟩ : Handler Nat Nat Nat) 0
        [.line ("HTTP/1.1 200 OK\r\n").toList,
          .line ("data: a\r\n").toList, .line ("data: b\r\n").toList]
      = (.ok 1, 1, 1, [.line ("data: b\r\n").toList]) :=
  c8_handler_termination_amended
    (⟨fun k _ => (k + 1, if k = 0 then .Done else .Progress),
      fun k => .ok k⟩ : Handler Nat Nat Nat) 0
    [.line ("HTTP/1.1 200 OK\r\n").toList,
      .line ("data: a\r\n").toList, .line ("data: b\r\n").toList]
    1 1 [.line ("data: b\r\n").toList]
    (RunsDone.last rfl rfl)

/-- Claim C9: when the registered error handler's catch answers `Retry`, the
driver restarts the whole loop from a fresh connect-and-send (the next
connect attempt of the schedule — a full-request replay, never a stream
resume); with no error handler registered the error is propagated unchanged
to the caller. The third conjunct is the src-backed propagation of
`SseSubscriber::subscribe`: a connection error is handed to the caller
through the `From` conversion with its payload intact. -/
theorem c9_retry_replays_and_default_propagates {T σ E : Type}
    (c : ErrCatcher T) (runOne : List SockItem → Except SseConnectionError T)
    (att : Except SseConnectionError (List SockItem))
    (more : List (Except SseConnectionError (List SockItem)))
    (e : SseConnectionError) (H : Handler σ T E) (st : σ)
    (ce : SseConnectionError)
    (herr : runAttempt runOne att = .error e)
    (hc : c.catchErr e = .Retry) :
    replayLoop (some c) runOne (att :: more) = replayLoop (some c) runOne more
    ∧ replayLoop none runOne (att :: more) = some (.error e)
    ∧ subscribe H st (.error ce) = .err (.fromConn ce) := by
  refine ⟨?_, ?_, rfl⟩
  · simp [replayLoop, herr, hc]
  · simp [replayLoop, herr]

/-- Witness for C9: a connect schedule whose first attempt fails with a
connection error, an always-retry catcher, and a trivial run function. -/
theorem c9_retry_replays_and_default_propagates_witness :
    replayLoop (some (⟨fun _ => .Retry⟩ : ErrCatcher Nat))
        (fun _ => .error (.ConnectionError 3)) (.ok [] :: [])
      = replayLoop (some (⟨fun _ => .Retry⟩ : ErrCatcher Nat))
        (fun _ => .error (.ConnectionError 3)) []
    ∧ replayLoop (none : Option (ErrCatcher Nat))
        (fun _ => .error (.ConnectionError 3)) (.ok [] :: [])
      = some (.error (.ConnectionError 3))
    ∧ subscribe (⟨fun _ _ => ((), .Progress), fun _ => .ok 0⟩ : Handler Unit Nat Nat)
        () (.error .ConnectError)
      = .err (.fromConn .ConnectError) :=
  c9_retry_replays_and_default_propagates
    (⟨fun _ => .Retry⟩ : ErrCatcher Nat)
    (fun _ => .error (.ConnectionError 3)) (.ok []) []
    (.ConnectionError 3)
    (⟨fun _ _ => ((), .Progress), fun _ => .ok 0⟩ : Handler Unit Nat Nat) ()
    .ConnectError rfl rfl

/-- Claim C10: `SseConnection::read` classifies every line independently of
all previously read lines — the connection value owns only the socket, with
no response-phase field, so the Lean embedding's only state is the socket
script itself. An SSE field line is delivered as `Progress` even as the very
first line (no status line or headers ever received); a non-error status
line is skipped; a header-shaped (or any other unrecognized) line is
skipped. -/
theorem c10_stateless_line_classification (l : List Char)
    (rest : List SockItem) (st : HttpStatusLine) (ev : SseResponse)
    (e : SseResponseError) :
    (HttpStatusLine.from_str l = .error .InvalidFormat →
      SseResponse.from_line l = .ok ev →
      read (.line l :: rest) = (.ok (.Progress ev), rest))
    ∧ (HttpStatusLine.from_str l = .ok st → st.is_error = false →
      read (.line l :: rest) = read rest)
    ∧ (HttpStatusLine.from_str l = .error .InvalidFormat →
      SseResponse.from_line l = .error e →
      read (.line l :: rest) = read rest) :=
  ⟨fun h1 h2 => read_progress l ev rest h1 h2,
   fun h1 h2 => read_status_skip l st rest h1 h2,
   fun h1 h2 => read_other_skip l e rest h1 h2⟩

/-- Witness for C10: a data line as the very first line, a skipped 200
status line, and a skipped header line. -/
theorem c10_stateless_line_classification_witness :
    read [.line ("data: hi\r\n").toList]
      = (.ok (.Progress (.Data ("hi").toList)), [])
    ∧ read (.line ("HTTP/1.1 200 OK\r\n").toList :: [.line ("data: hi\r\n").toList])
      = read [.line ("data: hi\r\n").toList]
    ∧ read (.line ("X-Header: v\r\n").toList :: []) = read [] :=
  ⟨(c10_stateless_line_classification ("data: hi\r\n").toList []
      ⟨.V1_1, .OK⟩ (.Data ("hi").toList) .InvalidFormat).1 rfl rfl,
   (c10_stateless_line_classification ("HTTP/1.1 200 OK\r\n").toList
      [.line ("data: hi\r\n").toList]
      ⟨.V1_1, .OK⟩ (.Data ("hi").toList) .InvalidFormat).2.1 rfl rfl,
   (c10_stateless_line_classification ("X-Header: v\r\n").toList []
      ⟨.V1_1, .OK⟩ (.Data ("hi").toList) .InvalidFormat).2.2 rfl rfl⟩

end Rsse
